import Mathlib

/-!
# Verification of the qmachine execution core

Shallow embedding of the qmachine repository (Go): the RISC-V-like textual
instruction decoder (`src/quantum/riscv.go`, `parseRegister`,
`parseRISCInstruction`, `LoadRISCProgram`), the classical scalar engine
(`executeRISCInstruction`, `ExecuteRISCProgram`), the per-register ("host")
quantum backend (`ExecuteQuantumRISCV`, `applyHostGate`, `measureHostState`,
`entangleHostStates`, `normalizeHostState`, `SetRegister`), and the monolithic
state-vector backend (`gates.go` `SingleQubitGate.Apply`, `state.go`
`Normalize`).

Conventions of the embedding:
* Go `uint64` values are `Nat` with an explicit `% 2^64` at every operation
  that can wrap; `uint32` likewise with `% 2^32`; `int64` values are `Int`
  with conversions made explicit.
* Go `float64`/`complex128` amplitude arithmetic is modelled exactly over
  `ℝ`/`ℂ` (the claims under study concern branch structure and exact
  algebraic values, not rounding).
* Go slices/arrays are `List`s or total functions; in-place mutation becomes
  functional record update.  Go array indexing that the parser guarantees to
  be in range (register indices ≤ 31) is modelled by total functions.
* Fallible Go functions returning `error` become `Except String`.
-/

deriving instance DecidableEq for Except

namespace QMachine

/-- `RISCInstruction` from riscv.go: opcode string, register indices
(Go `uint8`), immediate and offset (Go `int64`). -/
structure RISCInstruction where
  opcode : String
  rd : Nat
  rs1 : Nat
  rs2 : Nat
  imm : Int
  offset : Int
deriving DecidableEq, Repr

/-- Character-level splitter (kernel-reducible replacement for the byte-level
core string functions): cut a character list at every character satisfying
`p`, dropping empty pieces.  `acc` is the current field, reversed. -/
def splitFieldsAux (p : Char → Bool) : List Char → List Char → List (List Char)
  | [], acc => if acc = [] then [] else [acc.reverse]
  | c :: cs, acc =>
    if p c then
      if acc = [] then splitFieldsAux p cs []
      else acc.reverse :: splitFieldsAux p cs []
    else splitFieldsAux p cs (c :: acc)

/-- Go `strings.Fields`: split on runs of whitespace, dropping empty pieces. -/
def stringFields (s : String) : List String :=
  (splitFieldsAux (fun c => c.isWhitespace) s.data []).map (fun l => ⟨l⟩)

/-- Character-level splitter keeping empty pieces, as Go `strings.Split` with
a one-character separator does. -/
def splitKeepAux (sep : Char) : List Char → List Char → List (List Char)
  | [], acc => [acc.reverse]
  | c :: cs, acc =>
    if c = sep then acc.reverse :: splitKeepAux sep cs []
    else splitKeepAux sep cs (c :: acc)

/-- First character of a string, if any. -/
def headChar (s : String) : Option Char :=
  match s.data with
  | [] => none
  | c :: _ => some c

/-- Drop the first character of a string (used after a one-character marker
such as the register `x`, or a sign). -/
def dropOne (s : String) : String :=
  ⟨s.data.drop 1⟩

/-- Decimal digit accumulation used by the `strconv` models below. -/
def digitsVal (l : List Char) : Nat :=
  l.foldl (fun a c => a * 10 + (c.toNat - 48)) 0

/-- Go `strconv.ParseUint(s, 10, 8)`: nonempty all-digit string (no sign
permitted for ParseUint), value at most 255, else an error.  Go reports a
syntax error for malformed input and a range error above `2^8 - 1`. -/
def parseUint8Dec (s : String) : Except String Nat :=
  if s.data = [] then Except.error "invalid syntax"
  else if s.data.all Char.isDigit then
    let v := digitsVal s.data
    if v > 255 then Except.error "value out of range"
    else Except.ok v
  else Except.error "invalid syntax"

/-- Go `strconv.ParseInt(s, 10, 64)`: optional single sign, nonempty digits,
value within the signed 64-bit range. -/
def parseInt64Dec (s : String) : Except String Int :=
  let (neg, digits) :=
    if headChar s = some '-' then (true, s.data.drop 1)
    else if headChar s = some '+' then (false, s.data.drop 1)
    else (false, s.data)
  if digits = [] then Except.error "invalid syntax"
  else if digits.all Char.isDigit then
    let v : Int := digitsVal digits
    let signed := if neg then -v else v
    if signed < -(2 ^ 63) ∨ signed > 2 ^ 63 - 1 then
      Except.error "value out of range"
    else Except.ok signed
  else Except.error "invalid syntax"

/-- `parseRegister` from riscv.go: requires the `x` marker, parses the rest
with `strconv.ParseUint(_, 10, 8)`, then rejects numbers above 31.  The bound
31 is hardcoded; the same function is the only register decoder in the
repository and serves both the 32-register VM machine and the 128-register
host machine. -/
def parseRegister (reg : String) : Except String Nat :=
  if ¬ headChar reg = some 'x' then
    Except.error ("invalid register format: " ++ reg)
  else
    match parseUint8Dec (dropOne reg) with
    | Except.error e => Except.error ("invalid register number: " ++ e)
    | Except.ok num =>
      if num > 31 then
        Except.error ("register number out of range: " ++ Nat.repr num)
      else Except.ok num

/-- `parseLoadStore` from riscv.go: `offset(xN)` syntax.  Go splits on `"("`
(requiring exactly two pieces), parses the first piece as a signed offset and
the second piece, with trailing `)` characters trimmed, as a register. -/
def parseLoadStore (arg : String) : Except String (Nat × Int) :=
  match splitKeepAux '(' arg.data [] with
  | [off, regPart] =>
    match parseInt64Dec ⟨off⟩ with
    | Except.error e => Except.error ("invalid offset value: " ++ e)
    | Except.ok offset =>
      let reg : String := ⟨(regPart.reverse.dropWhile (fun c => c = ')')).reverse⟩
      match parseRegister reg with
      | Except.error e => Except.error e
      | Except.ok rs1 => Except.ok (rs1, offset)
  | _ => Except.error ("invalid load/store format: " ++ arg)

/-- `parseRISCInstruction` from riscv.go: whitespace-split the line, dispatch
on the mnemonic, check the operand count, parse the operands. -/
def parseRISCInstruction (instruction : String) : Except String RISCInstruction :=
  match stringFields instruction with
  | [] => Except.error "empty instruction"
  | opcode :: rest =>
    if opcode ∈ ["add", "sub", "and", "or", "xor", "sll", "srl", "sra", "slt", "sltu"] then
      match rest with
      | [p1, p2, p3] =>
        match parseRegister p1, parseRegister p2, parseRegister p3 with
        | Except.ok rd, Except.ok rs1, Except.ok rs2 =>
          Except.ok ⟨opcode, rd, rs1, rs2, 0, 0⟩
        | Except.error e, _, _ => Except.error e
        | _, Except.error e, _ => Except.error e
        | _, _, Except.error e => Except.error e
      | _ => Except.error "invalid number of arguments"
    else if opcode ∈ ["addi", "slli", "srli", "srai", "andi", "ori", "xori", "slti", "sltiu"] then
      match rest with
      | [p1, p2, p3] =>
        match parseRegister p1, parseRegister p2 with
        | Except.ok rd, Except.ok rs1 =>
          (match parseInt64Dec p3 with
           | Except.error e => Except.error ("invalid immediate value: " ++ e)
           | Except.ok imm => Except.ok ⟨opcode, rd, rs1, 0, imm, 0⟩)
        | Except.error e, _ => Except.error e
        | _, Except.error e => Except.error e
      | _ => Except.error "invalid number of arguments"
    else if opcode ∈ ["lui", "auipc"] then
      match rest with
      | [p1, p2] =>
        match parseRegister p1 with
        | Except.error e => Except.error e
        | Except.ok rd =>
          match parseInt64Dec p2 with
          | Except.error e => Except.error ("invalid immediate value: " ++ e)
          | Except.ok imm => Except.ok ⟨opcode, rd, 0, 0, imm, 0⟩
      | _ => Except.error "invalid number of arguments"
    else if opcode = "jal" then
      match rest with
      | [p1, p2] =>
        match parseRegister p1 with
        | Except.error e => Except.error e
        | Except.ok rd =>
          match parseInt64Dec p2 with
          | Except.error e => Except.error ("invalid offset value: " ++ e)
          | Except.ok offset => Except.ok ⟨opcode, rd, 0, 0, 0, offset⟩
      | _ => Except.error "invalid number of arguments"
    else if opcode = "jalr" then
      match rest with
      | [p1, p2, p3] =>
        match parseRegister p1, parseRegister p2 with
        | Except.ok rd, Except.ok rs1 =>
          (match parseInt64Dec p3 with
           | Except.error e => Except.error ("invalid offset value: " ++ e)
           | Except.ok offset => Except.ok ⟨opcode, rd, rs1, 0, 0, offset⟩)
        | Except.error e, _ => Except.error e
        | _, Except.error e => Except.error e
      | _ => Except.error "invalid number of arguments"
    else if opcode ∈ ["beq", "bne", "blt", "bge", "bltu", "bgeu"] then
      match rest with
      | [p1, p2, p3] =>
        match parseRegister p1, parseRegister p2 with
        | Except.ok rs1, Except.ok rs2 =>
          (match parseInt64Dec p3 with
           | Except.error e => Except.error ("invalid offset value: " ++ e)
           | Except.ok offset => Except.ok ⟨opcode, 0, rs1, rs2, 0, offset⟩)
        | Except.error e, _ => Except.error e
        | _, Except.error e => Except.error e
      | _ => Except.error "invalid number of arguments"
    else if opcode ∈ ["lw", "lh", "lb", "lwu", "lhu", "lbu"] then
      match rest with
      | [p1, p2] =>
        match parseRegister p1 with
        | Except.error e => Except.error e
        | Except.ok rd =>
          match parseLoadStore p2 with
          | Except.error e => Except.error e
          | Except.ok (rs1, offset) => Except.ok ⟨opcode, rd, rs1, 0, 0, offset⟩
      | _ => Except.error "invalid number of arguments"
    else if opcode ∈ ["sw", "sh", "sb"] then
      match rest with
      | [p1, p2] =>
        match parseRegister p1 with
        | Except.error e => Except.error e
        | Except.ok rs2 =>
          match parseLoadStore p2 with
          | Except.error e => Except.error e
          | Except.ok (rs1, offset) => Except.ok ⟨opcode, 0, rs1, rs2, 0, offset⟩
      | _ => Except.error "invalid number of arguments"
    else Except.error ("unknown instruction: " ++ opcode)

example : parseRegister "x5" = Except.ok 5 := by decide
example : parseRegister "x50" = Except.error "register number out of range: 50" := by decide
example : parseRISCInstruction "add x1 x2 x3" =
    Except.ok ⟨"add", 1, 2, 3, 0, 0⟩ := by decide
example : parseRISCInstruction "addi x1 x0 5" =
    Except.ok ⟨"addi", 1, 0, 0, 5, 0⟩ := by decide
example : parseRISCInstruction "lw x1 0(x2)" =
    Except.ok ⟨"lw", 1, 2, 0, 0, 0⟩ := by decide
example : parseRISCInstruction "bogus" = Except.error "unknown instruction: bogus" := by decide

/-! ## The classical VM machine (`QuantumRISCVMachine`) -/

/-- Modulus of Go `uint64` arithmetic. -/
def u64 : Nat := 2 ^ 64

/-- Modulus of Go `uint32` arithmetic (the program counter). -/
def u32 : Nat := 2 ^ 32

/-- Go conversion `uint64(i)` of an `int64` value: the low 64 bits. -/
def uint64OfInt (i : Int) : Nat :=
  (i % (u64 : Int)).toNat

/-- Go conversion `int64(v)` of a `uint64` value `v < 2^64`. -/
def toInt64 (v : Nat) : Int :=
  if v < 2 ^ 63 then (v : Int) else (v : Int) - (u64 : Int)

/-- Go conversion `uint32(i)` of an `int64` value: the low 32 bits. -/
def uint32OfInt (i : Int) : Nat :=
  (i % (u32 : Int)).toNat

/-- Go conversion `int8(b)` of a byte `b < 256` (sign extension). -/
def int8OfByte (b : Nat) : Int :=
  if b < 128 then (b : Int) else (b : Int) - 256

/-- Go conversion `int16(v)` of a 16-bit value `v < 2^16` (sign extension). -/
def int16OfU16 (v : Nat) : Int :=
  if v < 2 ^ 15 then (v : Int) else (v : Int) - 2 ^ 16

/-- `QuantumRISCVMachine` from riscv.go, restricted to the fields the
classical engine touches (`state`/`program`/`quantumRegs` are untouched by
`executeRISCInstruction` and by program loading).  `registers` models the Go
array `[32]uint64` as a total function (the decoder guarantees indices ≤ 31);
`memory` models the byte slice as a total function together with its length
`memSize` (Go: `len(m.memory)`, 1 MiB by default).  Invariant of every state
reachable from `newQuantumRISCVMachine`: register values are `< 2^64` and
memory bytes are `< 256`. -/
structure QuantumRISCVMachine where
  riscProgram : List RISCInstruction
  pc : Nat
  registers : Nat → Nat
  memory : Nat → Nat
  memSize : Nat

/-- `NewQuantumRISCVMachine` from riscv.go: empty program, `pc = 0`,
zeroed registers, 1 MiB of zeroed memory. -/
def newQuantumRISCVMachine : QuantumRISCVMachine :=
  { riscProgram := []
    pc := 0
    registers := fun _ => 0
    memory := fun _ => 0
    memSize := 1024 * 1024 }

/-- Little-endian 32-bit word assembled from four bytes, as the `lw`/`lwu`
cases do with `uint64(b0) | uint64(b1)<<8 | uint64(b2)<<16 | uint64(b3)<<24`. -/
def word32At (mem : Nat → Nat) (addr : Nat) : Nat :=
  mem addr ||| (mem (addr + 1) <<< 8) ||| (mem (addr + 2) <<< 16) ||| (mem (addr + 3) <<< 24)

/-- `executeRISCInstruction` from riscv.go: one instruction, dispatched on the
mnemonic; mutation of the Go machine becomes a returned updated machine.
The branch/jump cases assign `m.pc` and return early; all other cases leave
`m.pc` alone — the `ExecuteRISCProgram` loop increments `pc` afterwards in
both situations (see `riscLoopBody`).  Note: shift counts in Go give 0 when
they reach the operand width for unsigned shifts, which `(a * 2^b) % 2^64`
and `a / 2^b` reproduce; `srai` with a negative immediate panics in Go and is
modelled via `Int.toNat` of the immediate. -/
def executeRISCInstruction (m : QuantumRISCVMachine) (inst : RISCInstruction) :
    Except String QuantumRISCVMachine :=
  let regs := m.registers
  let setReg := fun (r : Nat) (v : Nat) =>
    { m with registers := Function.update m.registers r v }
  match inst.opcode with
  | "add" => Except.ok (setReg inst.rd ((regs inst.rs1 + regs inst.rs2) % u64))
  | "sub" => Except.ok (setReg inst.rd ((regs inst.rs1 + u64 - regs inst.rs2 % u64) % u64))
  | "and" => Except.ok (setReg inst.rd (regs inst.rs1 &&& regs inst.rs2))
  | "or" => Except.ok (setReg inst.rd (regs inst.rs1 ||| regs inst.rs2))
  | "xor" => Except.ok (setReg inst.rd (regs inst.rs1 ^^^ regs inst.rs2))
  | "sll" => Except.ok (setReg inst.rd ((regs inst.rs1 <<< regs inst.rs2) % u64))
  | "srl" => Except.ok (setReg inst.rd (regs inst.rs1 >>> regs inst.rs2))
  | "sra" =>
    Except.ok (setReg inst.rd
      (uint64OfInt (Int.fdiv (toInt64 (regs inst.rs1)) ((2 : Int) ^ regs inst.rs2))))
  | "slt" =>
    Except.ok (setReg inst.rd (if toInt64 (regs inst.rs1) < toInt64 (regs inst.rs2) then 1 else 0))
  | "sltu" =>
    Except.ok (setReg inst.rd (if regs inst.rs1 < regs inst.rs2 then 1 else 0))
  | "addi" => Except.ok (setReg inst.rd ((regs inst.rs1 + uint64OfInt inst.imm) % u64))
  | "slli" => Except.ok (setReg inst.rd ((regs inst.rs1 <<< uint64OfInt inst.imm) % u64))
  | "srli" => Except.ok (setReg inst.rd (regs inst.rs1 >>> uint64OfInt inst.imm))
  | "srai" =>
    Except.ok (setReg inst.rd
      (uint64OfInt (Int.fdiv (toInt64 (regs inst.rs1)) ((2 : Int) ^ inst.imm.toNat))))
  | "andi" => Except.ok (setReg inst.rd (regs inst.rs1 &&& uint64OfInt inst.imm))
  | "ori" => Except.ok (setReg inst.rd (regs inst.rs1 ||| uint64OfInt inst.imm))
  | "xori" => Except.ok (setReg inst.rd (regs inst.rs1 ^^^ uint64OfInt inst.imm))
  | "slti" =>
    Except.ok (setReg inst.rd (if toInt64 (regs inst.rs1) < inst.imm then 1 else 0))
  | "sltiu" =>
    Except.ok (setReg inst.rd (if regs inst.rs1 < uint64OfInt inst.imm then 1 else 0))
  | "lui" => Except.ok (setReg inst.rd ((uint64OfInt inst.imm <<< 12) % u64))
  | "auipc" => Except.ok (setReg inst.rd ((m.pc + (uint64OfInt inst.imm <<< 12)) % u64))
  | "jal" =>
    let nextPC := (m.pc + uint64OfInt inst.offset) % u64
    let m1 := setReg inst.rd ((m.pc + 4) % u64)
    Except.ok { m1 with pc := nextPC % u32 }
  | "jalr" =>
    let nextPC := (regs inst.rs1 + uint64OfInt inst.offset) % u64
    let m1 := setReg inst.rd ((m.pc + 4) % u64)
    Except.ok { m1 with pc := nextPC % u32 }
  | "beq" =>
    if regs inst.rs1 = regs inst.rs2 then
      Except.ok { m with pc := uint32OfInt ((m.pc : Int) + inst.offset) }
    else Except.ok m
  | "bne" =>
    if ¬ regs inst.rs1 = regs inst.rs2 then
      Except.ok { m with pc := uint32OfInt ((m.pc : Int) + inst.offset) }
    else Except.ok m
  | "blt" =>
    if toInt64 (regs inst.rs1) < toInt64 (regs inst.rs2) then
      Except.ok { m with pc := uint32OfInt ((m.pc : Int) + inst.offset) }
    else Except.ok m
  | "bge" =>
    if toInt64 (regs inst.rs1) ≥ toInt64 (regs inst.rs2) then
      Except.ok { m with pc := uint32OfInt ((m.pc : Int) + inst.offset) }
    else Except.ok m
  | "bltu" =>
    if regs inst.rs1 < regs inst.rs2 then
      Except.ok { m with pc := uint32OfInt ((m.pc : Int) + inst.offset) }
    else Except.ok m
  | "bgeu" =>
    if regs inst.rs1 ≥ regs inst.rs2 then
      Except.ok { m with pc := uint32OfInt ((m.pc : Int) + inst.offset) }
    else Except.ok m
  | "lw" =>
    let addr := (regs inst.rs1 + uint64OfInt inst.offset) % u64
    if (addr + 4) % u64 > m.memSize then Except.error "memory access out of bounds"
    else Except.ok (setReg inst.rd (word32At m.memory addr))
  | "lh" =>
    let addr := (regs inst.rs1 + uint64OfInt inst.offset) % u64
    if (addr + 2) % u64 > m.memSize then Except.error "memory access out of bounds"
    else
      Except.ok (setReg inst.rd
        (uint64OfInt (int16OfU16 (m.memory addr ||| (m.memory (addr + 1) <<< 8)))))
  | "lb" =>
    let addr := (regs inst.rs1 + uint64OfInt inst.offset) % u64
    if addr ≥ m.memSize then Except.error "memory access out of bounds"
    else Except.ok (setReg inst.rd (uint64OfInt (int8OfByte (m.memory addr))))
  | "lwu" =>
    let addr := (regs inst.rs1 + uint64OfInt inst.offset) % u64
    if (addr + 4) % u64 > m.memSize then Except.error "memory access out of bounds"
    else Except.ok (setReg inst.rd (word32At m.memory addr))
  | "lhu" =>
    let addr := (regs inst.rs1 + uint64OfInt inst.offset) % u64
    if (addr + 2) % u64 > m.memSize then Except.error "memory access out of bounds"
    else Except.ok (setReg inst.rd (m.memory addr ||| (m.memory (addr + 1) <<< 8)))
  | "lbu" =>
    let addr := (regs inst.rs1 + uint64OfInt inst.offset) % u64
    if addr ≥ m.memSize then Except.error "memory access out of bounds"
    else Except.ok (setReg inst.rd (m.memory addr))
  | "sw" =>
    let addr := (regs inst.rs1 + uint64OfInt inst.offset) % u64
    if (addr + 4) % u64 > m.memSize then Except.error "memory access out of bounds"
    else
      let v := regs inst.rs2
      Except.ok { m with memory := (fun a =>
        if a = addr then v % 256
        else if a = addr + 1 then (v >>> 8) % 256
        else if a = addr + 2 then (v >>> 16) % 256
        else if a = addr + 3 then (v >>> 24) % 256
        else m.memory a) }
  | "sh" =>
    let addr := (regs inst.rs1 + uint64OfInt inst.offset) % u64
    if (addr + 2) % u64 > m.memSize then Except.error "memory access out of bounds"
    else
      let v := regs inst.rs2
      Except.ok { m with memory := (fun a =>
        if a = addr then v % 256
        else if a = addr + 1 then (v >>> 8) % 256
        else m.memory a) }
  | "sb" =>
    let addr := (regs inst.rs1 + uint64OfInt inst.offset) % u64
    if addr ≥ m.memSize then Except.error "memory access out of bounds"
    else Except.ok { m with memory := (fun a =>
      if a = addr then regs inst.rs2 % 256 else m.memory a) }
  | op => Except.error ("unknown RISC-V instruction: " ++ op)

/-- Body of the `ExecuteRISCProgram` loop in riscv.go: execute the fetched
instruction (which may itself assign `pc`, as the branch/jump cases do), then
perform the loop's unconditional `m.pc++` (a `uint32` increment).  The next
instruction fetched by the loop is the one at the resulting `pc`. -/
def riscLoopBody (m : QuantumRISCVMachine) (inst : RISCInstruction) :
    Except String QuantumRISCVMachine :=
  (executeRISCInstruction m inst).map (fun m1 => { m1 with pc := (m1.pc + 1) % u32 })

/-- `ExecuteRISCProgram` from riscv.go, with explicit fuel (the Go loop has
none and can diverge): set `pc = 0`, then repeat `riscLoopBody` on the fetched
instruction while `pc < len(riscProgram)`; a failing step aborts with the
failing `pc` attached.  `Except.ok none` means the fuel ran out. -/
def runRISCLoop : Nat → QuantumRISCVMachine → Except String (Option QuantumRISCVMachine)
  | 0, _ => Except.ok none
  | fuel + 1, m =>
    match m.riscProgram.get? m.pc with
    | none => Except.ok (some m)
    | some inst =>
      match riscLoopBody m inst with
      | Except.error e =>
        Except.error ("error at PC " ++ Nat.repr m.pc ++ ": " ++ e)
      | Except.ok m1 => runRISCLoop fuel m1

/-- `ExecuteRISCProgram` entry: reset `pc` to 0 and run the loop. -/
def executeRISCProgram (fuel : Nat) (m : QuantumRISCVMachine) :
    Except String (Option QuantumRISCVMachine) :=
  runRISCLoop fuel { m with pc := 0 }

/-- The branch conditions of `executeRISCInstruction`, per opcode. -/
def branchTaken (regs : Nat → Nat) (inst : RISCInstruction) : Bool :=
  if inst.opcode = "beq" then regs inst.rs1 == regs inst.rs2
  else if inst.opcode = "bne" then ¬ regs inst.rs1 = regs inst.rs2
  else if inst.opcode = "blt" then decide (toInt64 (regs inst.rs1) < toInt64 (regs inst.rs2))
  else if inst.opcode = "bge" then decide (toInt64 (regs inst.rs1) ≥ toInt64 (regs inst.rs2))
  else if inst.opcode = "bltu" then decide (regs inst.rs1 < regs inst.rs2)
  else if inst.opcode = "bgeu" then decide (regs inst.rs1 ≥ regs inst.rs2)
  else false

/-! ## Program loading (`LoadRISCProgram`) -/

/-- Go `strings.TrimSpace`. -/
def trimSpace (s : String) : String :=
  ⟨((s.data.dropWhile Char.isWhitespace).reverse.dropWhile Char.isWhitespace).reverse⟩

/-- Go `strings.HasPrefix(line, "#")` for the comment check. -/
def isCommentLine (s : String) : Bool :=
  headChar s = some '#'

/-- The loop of `LoadRISCProgram` from riscv.go: walk the lines, skip blank
and comment lines, parse the rest, appending each parsed instruction to the
machine's program slice as it goes.  On the first parse failure it returns the
error immediately — the instructions appended so far (`acc`) stay in the
machine. -/
def loadLines : List String → List RISCInstruction →
    Option String × List RISCInstruction
  | [], acc => (none, acc)
  | l :: rest, acc =>
    let line := trimSpace l
    if line = "" ∨ isCommentLine line then loadLines rest acc
    else
      match parseRISCInstruction line with
      | Except.error e =>
        (some ("error parsing instruction " ++ line ++ ": " ++ e), acc)
      | Except.ok inst => loadLines rest (acc ++ [inst])

/-- `LoadRISCProgram` from riscv.go, with the file already read into
`content`: reset `m.riscProgram` to empty, split the text into lines, and run
the parse-and-append loop.  Whether or not an error is returned, the machine
keeps whatever `m.riscProgram` the loop built (Go mutates the field in
place). -/
def loadRISCProgram (content : String) (m : QuantumRISCVMachine) :
    Option String × QuantumRISCVMachine :=
  let lines := (splitKeepAux '\n' content.data []).map (fun l => (⟨l⟩ : String))
  let r := loadLines lines []
  (r.1, { m with riscProgram := r.2 })

/-! ## The host (per-register) quantum backend

Amplitudes (`complex128` in Go) are modelled exactly over `ℂ`; `float64`
probability arithmetic over `ℝ`.  `math.Sqrt2` is `Real.sqrt 2`; division by
zero, which in Go produces `+Inf`, is the Lean convention `x / 0 = 0` — the
claims touching that case only need that the result is not the normal value.
These definitions are noncomputable because `ℝ` comparison, inverse and
square root are; concrete evaluations in the theorems below go through
`simp`/`norm_num` instead of `decide`. -/

noncomputable section

/-- Go `uint8(i)` of an `int64`: the low 8 bits. -/
def uint8OfInt (i : Int) : Nat :=
  (i % 256).toNat

/-- `HostQuantumState` from riscv.go: a dense amplitude vector of length
`2^numQubits`. -/
structure HostQuantumState where
  amplitudes : List ℂ
  numQubits : Nat

/-- `NewHostQuantumState` from riscv.go: all-zero amplitude vector. -/
def newHostQuantumState (numQubits : Nat) : HostQuantumState :=
  { amplitudes := List.replicate (2 ^ numQubits) 0
    numQubits := numQubits }

/-- Amplitude read `state.amplitudes[i]`; the Go accesses modelled here are
always in range, so the default is never exercised on reachable states. -/
def ampGet (l : List ℂ) (i : Nat) : ℂ :=
  l.getD i 0

/-- `HostQuantumMachine` from riscv.go: 128 scalar registers (total function,
like the VM machine's) and one optional owned quantum state per register.
The `state` and `memory` fields of the Go struct are untouched by
`ExecuteQuantumRISCV` and omitted. -/
structure HostQuantumMachine where
  registers : Nat → Nat
  quantumRegs : Nat → Option HostQuantumState

/-- `NewHostQuantumMachine`: zeroed registers, no quantum bindings. -/
def newHostQuantumMachine : HostQuantumMachine :=
  { registers := fun _ => 0
    quantumRegs := fun _ => none }

/-- The probability mass `Σ real(amp * conj(amp))` that `normalizeHostState`,
`measureHostState` and `state.go`'s `Normalize` all compute. -/
def totalMass (l : List ℂ) : ℝ :=
  (l.map (fun a => (a * (starRingEnd ℂ) a).re)).sum

/-- `normalizeHostState` from riscv.go: scale every amplitude by
`1 / sqrt(Σ|amp|²)`. -/
def normalizeHostState (st : HostQuantumState) : HostQuantumState :=
  let norm : ℝ := 1 / Real.sqrt (totalMass st.amplitudes)
  { st with amplitudes := st.amplitudes.map (fun a => a * (norm : ℂ)) }

/-- `applyHostGate` from riscv.go: explicit 2×2 (and one 4×4 swap) formulas
on the private amplitude array, selected by the low 8 bits of the immediate;
a selector with no case (7–255, or 6 on a non-2-qubit state) falls through
with the amplitudes untouched.  Every call ends in `normalizeHostState`. -/
def applyHostGate (gateType : Nat) (st : HostQuantumState) : HostQuantumState :=
  let a0 := ampGet st.amplitudes 0
  let a1 := ampGet st.amplitudes 1
  let st1 :=
    if gateType = 0 then
      { st with amplitudes := (st.amplitudes.set 0 a1).set 1 a0 }
    else if gateType = 1 then
      { st with amplitudes :=
        ((st.amplitudes.set 0 (-Complex.I * a1)).set 1 (Complex.I * a0)) }
    else if gateType = 2 then
      { st with amplitudes := st.amplitudes.set 1 (-a1) }
    else if gateType = 3 then
      let invSqrt2 : ℂ := ((1 / Real.sqrt 2 : ℝ) : ℂ)
      { st with amplitudes :=
        ((st.amplitudes.set 0 (invSqrt2 * (a0 + a1))).set 1 (invSqrt2 * (a0 - a1))) }
    else if gateType = 4 then
      { st with amplitudes := st.amplitudes.set 1 (a1 * Complex.I) }
    else if gateType = 5 then
      { st with amplitudes :=
        (st.amplitudes.set 1 (a1 * Complex.exp (Complex.I * (Real.pi / 4 : ℝ)))) }
    else if gateType = 6 then
      if st.numQubits = 2 then
        { st with amplitudes :=
          ((st.amplitudes.set 2 (ampGet st.amplitudes 3)).set 3 (ampGet st.amplitudes 2)) }
      else st
    else st
  normalizeHostState st1

/-- `measureHostState` from riscv.go: deterministic — 0 when the marginal
probability of basis value 0 is strictly greater, otherwise 1. -/
def measureHostState (st : HostQuantumState) : Nat :=
  let p0 := (ampGet st.amplitudes 0 * (starRingEnd ℂ) (ampGet st.amplitudes 0)).re
  let p1 := (ampGet st.amplitudes 1 * (starRingEnd ℂ) (ampGet st.amplitudes 1)).re
  if p0 > p1 then 0 else 1

/-- `entangleHostStates` from riscv.go: ignore both source states and write
the Bell state `(|00⟩+|11⟩)/√2` into the (freshly allocated, all-zero)
`result` vector. -/
def entangleHostStates (_state1 _state2 : HostQuantumState)
    (result : HostQuantumState) : HostQuantumState :=
  { result with amplitudes :=
      ((result.amplitudes.set 0 ((1 / Real.sqrt 2 : ℝ) : ℂ)).set 3
        ((1 / Real.sqrt 2 : ℝ) : ℂ)) }

/-- `SetRegister` from riscv.go (host machine): writes are discarded when the
register index is 0. -/
def hostSetRegister (m : HostQuantumMachine) (reg : Nat) (v : Nat) :
    HostQuantumMachine :=
  if reg = 0 then m
  else { m with registers := Function.update m.registers reg v }

/-- `ExecuteQuantumRISCV` from riscv.go: the four quantum opcodes of the host
backend.  Note that `qmeasure` stores into `m.registers[inst.Rd]` directly,
not through `SetRegister`. -/
def executeQuantumRISCV (m : HostQuantumMachine) (inst : RISCInstruction) :
    Except String HostQuantumMachine :=
  match inst.opcode with
  | "qinit" =>
    let st := newHostQuantumState 1
    Except.ok { m with quantumRegs :=
      (Function.update m.quantumRegs inst.rd
        (some { st with amplitudes := st.amplitudes.set 0 1 })) }
  | "qapply" =>
    match m.quantumRegs inst.rs1 with
    | none =>
      Except.error ("quantum register x" ++ Nat.repr inst.rs1 ++ " not initialized")
    | some st =>
      let gateType := uint8OfInt inst.imm
      Except.ok { m with quantumRegs :=
        (Function.update m.quantumRegs inst.rs1 (some (applyHostGate gateType st))) }
  | "qmeasure" =>
    match m.quantumRegs inst.rs1 with
    | none =>
      Except.error ("quantum register x" ++ Nat.repr inst.rs1 ++ " not initialized")
    | some st =>
      Except.ok { m with registers :=
        (Function.update m.registers inst.rd (measureHostState st)) }
  | "qentangle" =>
    match m.quantumRegs inst.rs1, m.quantumRegs inst.rs2 with
    | some st1, some st2 =>
      let entangled := entangleHostStates st1 st2 (newHostQuantumState 2)
      Except.ok { m with quantumRegs :=
        (Function.update m.quantumRegs inst.rd (some entangled)) }
    | _, _ => Except.error "quantum registers not initialized"
  | op => Except.error ("unknown quantum instruction: " ++ op)

/-! ## The monolithic state vector (`state.go`, `gates.go`) -/

/-- `QuantumState` from state.go. -/
structure QuantumState where
  amplitudes : List ℂ
  numQubits : Nat

/-- `Normalize` from state.go: identical to `normalizeHostState`. -/
def stateNormalize (qs : QuantumState) : QuantumState :=
  let norm : ℝ := 1 / Real.sqrt (totalMass qs.amplitudes)
  { qs with amplitudes := qs.amplitudes.map (fun a => a * (norm : ℂ)) }

/-- A `[2][2]Complex128` gate matrix, accessed as `matrix[row][col]` with
row/column values in `{0,1}`. -/
def GateMatrix : Type := Nat → Nat → ℂ

/-- The Pauli-X matrix `{{0,1},{1,0}}` from gates.go. -/
def gateX : GateMatrix := fun i j =>
  if i = 0 ∧ j = 1 then 1 else if i = 1 ∧ j = 0 then 1 else 0

/-- The control check inside `SingleQubitGate.Apply`: every control bit of
the basis index must be 1. -/
def controlsMet (i : Nat) (controls : List Nat) : Bool :=
  controls.all (fun c => (i >>> c) &&& 1 == 1)

/-- The accumulation loop of `SingleQubitGate.Apply` from gates.go: starting
from an all-zero `newAmplitudes` array, walk the basis indices `i` in order.
Where the controls are met, clear the target bit (`i & ^(1 << target)`, here
realised by xor-ing out the extracted bit) and accumulate
`amplitude[i] * matrix[targetBit][j]` into the two partner indices; where
they are not, assign the old amplitude through. -/
def applyAccum (g : GateMatrix) (st : QuantumState) (target : Nat)
    (controls : List Nat) : List ℂ :=
  let size := 2 ^ st.numQubits
  (List.range size).foldl
    (fun newAmps i =>
      if controlsMet i controls then
        let targetBit := (i >>> target) &&& 1
        let otherBits := i ^^^ (targetBit <<< target)
        let idx0 := otherBits ||| (0 <<< target)
        let idx1 := otherBits ||| (1 <<< target)
        let n0 := newAmps.set idx0 (ampGet newAmps idx0 + ampGet st.amplitudes i * g targetBit 0)
        n0.set idx1 (ampGet n0 idx1 + ampGet st.amplitudes i * g targetBit 1)
      else newAmps.set i (ampGet st.amplitudes i))
    (List.replicate size 0)

/-- `SingleQubitGate.Apply` from gates.go: build the full replacement array,
swap it in, then `Normalize`. -/
def singleQubitGateApply (g : GateMatrix) (st : QuantumState) (target : Nat)
    (controls : List Nat) : QuantumState :=
  stateNormalize { st with amplitudes := applyAccum g st target controls }

/-- The 1-qubit state `qinit` creates: amplitude 1 on basis 0. -/
def qinitState : HostQuantumState := ⟨[1, 0], 1⟩

/-- A host machine with `qinit` already performed on register 1 (a concrete
machine for instantiating the quantum theorems). -/
def hostMachineWithQ1 : HostQuantumMachine :=
  { newHostQuantumMachine with quantumRegs :=
      (Function.update newHostQuantumMachine.quantumRegs 1 (some qinitState)) }

/-- A host machine with `qinit` already performed on registers 1 and 2. -/
def hostMachineWithQ12 : HostQuantumMachine :=
  { newHostQuantumMachine with quantumRegs :=
      (fun i => if i = 1 ∨ i = 2 then some qinitState else none) }

end

/-! ## Supporting lemmas -/

/-- Loading a block of lines that parses cleanly and then continuing: the
loop threads the accumulated program through. -/
lemma loadLines_ok_append (good rest : List String) (acc okAcc : List RISCInstruction)
    (h : loadLines good acc = (none, okAcc)) :
    loadLines (good ++ rest) acc = loadLines rest okAcc := by
  induction good generalizing acc with
  | nil =>
    simp only [loadLines, Prod.mk.injEq] at h
    rw [List.nil_append, h.2]
  | cons l gs ih =>
    by_cases hskip : trimSpace l = "" ∨ isCommentLine (trimSpace l)
    · simp only [loadLines, if_pos hskip, List.cons_append] at h ⊢
      exact ih _ h
    · simp only [loadLines, if_neg hskip, List.cons_append] at h ⊢
      cases hp : parseRISCInstruction (trimSpace l) with
      | error e => rw [hp] at h; simp at h
      | ok inst => rw [hp] at h; exact ih _ h

/-! ## C1: atomicity of program loading -/

/-- C1 (counterexample): a two-line program whose second line is malformed.
`LoadRISCProgram` reports a parse error, yet the machine is left holding the
one instruction parsed from the valid first line — not zero instructions. -/
theorem load_partial_program_counterexample :
    (loadRISCProgram "add x1 x2 x3\nbogus" newQuantumRISCVMachine).1 =
      some "error parsing instruction bogus: unknown instruction: bogus" ∧
    (loadRISCProgram "add x1 x2 x3\nbogus" newQuantumRISCVMachine).2.riscProgram =
      [⟨"add", 1, 2, 3, 0, 0⟩] ∧
    ([(⟨"add", 1, 2, 3, 0, 0⟩ : RISCInstruction)] ≠ []) := by
  refine ⟨by decide, by decide, by decide⟩

/-- C1 (amended): program loading is not atomic.  When the line list splits
into a cleanly-loading block `good`, a malformed line `bad` and a remainder,
`LoadRISCProgram` returns the parse error for `bad` and the machine retains
exactly the instructions obtained by loading `good` alone — the partial
program from the valid lines preceding the failure. -/
theorem load_error_keeps_parsed_valid_lines (content : String)
    (m : QuantumRISCVMachine) (good : List String) (bad : String)
    (rest : List String) (okAcc : List RISCInstruction) (e : String)
    (hsplit : (splitKeepAux '\n' content.data []).map (fun l => (⟨l⟩ : String)) =
      good ++ bad :: rest)
    (hgood : loadLines good [] = (none, okAcc))
    (hbad1 : ¬ (trimSpace bad = "" ∨ isCommentLine (trimSpace bad)))
    (hbad2 : parseRISCInstruction (trimSpace bad) = Except.error e) :
    (loadRISCProgram content m).1 =
      some ("error parsing instruction " ++ trimSpace bad ++ ": " ++ e) ∧
    (loadRISCProgram content m).2.riscProgram = okAcc := by
  have hl : loadLines ((splitKeepAux '\n' content.data []).map
      (fun l => (⟨l⟩ : String))) [] =
      (some ("error parsing instruction " ++ trimSpace bad ++ ": " ++ e), okAcc) := by
    rw [hsplit, loadLines_ok_append good (bad :: rest) [] okAcc hgood]
    simp only [loadLines, if_neg hbad1, hbad2]
  constructor <;> simp [loadRISCProgram, hl]

/-- C1 witness: the amended theorem applied to the concrete two-line program
of the counterexample. -/
theorem load_error_keeps_parsed_valid_lines_witness :
    (loadRISCProgram "add x1 x2 x3\nbogus" newQuantumRISCVMachine).2.riscProgram =
      [⟨"add", 1, 2, 3, 0, 0⟩] :=
  (load_error_keeps_parsed_valid_lines "add x1 x2 x3\nbogus"
    newQuantumRISCVMachine ["add x1 x2 x3"] "bogus" []
    [⟨"add", 1, 2, 3, 0, 0⟩] "unknown instruction: bogus"
    (by decide) (by decide) (by decide) (by decide)).2

/-! ## C2: branch displacement in the program-level run loop -/

/-- C2 (counterexample): `beq x0 x0 3` at `pc = 0` is taken, yet the next
instruction fetched by the run loop is at 4 = pc + offset + 1, not at
3 = pc + offset as the claim states — the loop increments `pc` again after
the branch assigns it. -/
theorem branch_taken_offset_counterexample :
    (riscLoopBody { newQuantumRISCVMachine with riscProgram := [⟨"beq", 0, 0, 0, 0, 3⟩] }
        ⟨"beq", 0, 0, 0, 0, 3⟩).map QuantumRISCVMachine.pc = Except.ok 4 ∧
    (4 : Nat) ≠ 0 + 3 := by
  refine ⟨by decide, by decide⟩

/-- C2 (amended): in the program-level run loop, a taken branch continues at
`pc + offset + 1` (the instruction handler assigns `pc + offset`, then the
loop increments), while a branch that is not taken continues at `pc + 1`,
both as 32-bit values. -/
theorem branch_next_fetch (m : QuantumRISCVMachine) (inst : RISCInstruction)
    (hfetch : m.riscProgram.get? m.pc = some inst)
    (hbr : inst.opcode ∈ ["beq", "bne", "blt", "bge", "bltu", "bgeu"]) :
    (riscLoopBody m inst).map QuantumRISCVMachine.pc =
      Except.ok (if branchTaken m.registers inst
        then (uint32OfInt ((m.pc : Int) + inst.offset) + 1) % u32
        else (m.pc + 1) % u32) := by
  clear hfetch
  obtain ⟨op, rd, rs1, rs2, imm, off⟩ := inst
  simp only [List.mem_cons, List.not_mem_nil, or_false] at hbr
  rcases hbr with h | h | h | h | h | h <;> subst h
  · by_cases hc : m.registers rs1 = m.registers rs2 <;>
      simp [riscLoopBody, executeRISCInstruction, branchTaken, Except.map, hc]
  · by_cases hc : m.registers rs1 = m.registers rs2 <;>
      simp [riscLoopBody, executeRISCInstruction, branchTaken, Except.map, hc]
  · by_cases hc : toInt64 (m.registers rs1) < toInt64 (m.registers rs2) <;>
      simp [riscLoopBody, executeRISCInstruction, branchTaken, Except.map, hc]
  · by_cases hc : toInt64 (m.registers rs1) ≥ toInt64 (m.registers rs2) <;>
      simp [riscLoopBody, executeRISCInstruction, branchTaken, Except.map, hc]
  · by_cases hc : m.registers rs1 < m.registers rs2 <;>
      simp [riscLoopBody, executeRISCInstruction, branchTaken, Except.map, hc]
  · by_cases hc : m.registers rs1 ≥ m.registers rs2 <;>
      simp [riscLoopBody, executeRISCInstruction, branchTaken, Except.map, hc]

/-- C2 witness: the amended branch theorem at the concrete taken `beq`. -/
theorem branch_next_fetch_witness :
    ({ newQuantumRISCVMachine with riscProgram :=
        [⟨"beq", 0, 0, 0, 0, 3⟩] } : QuantumRISCVMachine).riscProgram.get? 0 =
      some ⟨"beq", 0, 0, 0, 0, 3⟩ ∧
    (riscLoopBody { newQuantumRISCVMachine with riscProgram := [⟨"beq", 0, 0, 0, 0, 3⟩] }
        ⟨"beq", 0, 0, 0, 0, 3⟩).map QuantumRISCVMachine.pc = Except.ok 4 := by
  refine ⟨rfl, ?_⟩
  rw [branch_next_fetch
    { newQuantumRISCVMachine with riscProgram := [⟨"beq", 0, 0, 0, 0, 3⟩] }
    ⟨"beq", 0, 0, 0, 0, 3⟩ rfl (by decide)]
  decide

/-! ## C3: jal link value and displacement -/

/-- C3 (counterexample): `jal x1 2` at `pc = 0` writes link value 4 = pc + 4
(not 1 = pc + 1) into x1, and the run loop continues at 3 = pc + offset + 1
(not 2 = pc + offset). -/
theorem jal_link_value_counterexample :
    (riscLoopBody { newQuantumRISCVMachine with riscProgram := [⟨"jal", 1, 0, 0, 0, 2⟩] }
        ⟨"jal", 1, 0, 0, 0, 2⟩).map (fun x => (x.pc, x.registers 1)) =
      Except.ok (3, 4) ∧
    (3 : Nat) ≠ 0 + 2 ∧ (4 : Nat) ≠ 0 + 1 := by
  refine ⟨by decide, by decide, by decide⟩

/-- C3 (amended): `jal` writes `pc + 4` (a 64-bit value) to rd — the Go code
adds 4 as if `pc` counted bytes even though the program is indexed by
instruction — and the run loop fetches next from
`((pc + offset) mod 2^64) mod 2^32 + 1`, again one past the jump target
because of the loop's unconditional increment. -/
theorem jal_link_and_next_fetch (m : QuantumRISCVMachine) (inst : RISCInstruction)
    (hfetch : m.riscProgram.get? m.pc = some inst)
    (hop : inst.opcode = "jal") :
    (riscLoopBody m inst).map (fun x => (x.pc, x.registers inst.rd)) =
      Except.ok ((((m.pc + uint64OfInt inst.offset) % u64 % u32 + 1) % u32,
        (m.pc + 4) % u64)) := by
  clear hfetch
  obtain ⟨op, rd, rs1, rs2, imm, off⟩ := inst
  simp only at hop
  subst hop
  simp [riscLoopBody, executeRISCInstruction, Except.map, Function.update_same]

/-- C3 witness: the amended jal theorem at the concrete `jal x1 2`. -/
theorem jal_link_and_next_fetch_witness :
    ({ newQuantumRISCVMachine with riscProgram :=
        [⟨"jal", 1, 0, 0, 0, 2⟩] } : QuantumRISCVMachine).riscProgram.get? 0 =
      some ⟨"jal", 1, 0, 0, 0, 2⟩ ∧
    (riscLoopBody { newQuantumRISCVMachine with riscProgram := [⟨"jal", 1, 0, 0, 0, 2⟩] }
        ⟨"jal", 1, 0, 0, 0, 2⟩).map (fun x => (x.pc, x.registers 1)) =
      Except.ok (3, 4) := by
  refine ⟨rfl, ?_⟩
  rw [jal_link_and_next_fetch
    { newQuantumRISCVMachine with riscProgram := [⟨"jal", 1, 0, 0, 0, 2⟩] }
    ⟨"jal", 1, 0, 0, 0, 2⟩ rfl rfl]
  decide

/-! ## C4: the x0-is-zero invariant -/

/-- C4 (counterexample): `addi x0 x0 5` executed by the VM machine writes 5
into register 0 — instruction execution does not guard the zero register, so
register 0 is not hardwired to zero in every reachable state. -/
theorem x0_write_counterexample :
    (executeRISCInstruction newQuantumRISCVMachine ⟨"addi", 0, 0, 0, 5, 0⟩).map
      (fun x => x.registers 0) = Except.ok 5 ∧ (5 : Nat) ≠ 0 := by
  refine ⟨by decide, by decide⟩

/-- C4 (amended): the only x0 protection in the repository is the host
machine's `SetRegister`, which discards writes to register 0; the VM
machine's `executeRISCInstruction` (and the host `qmeasure` path) write the
destination register directly, so register 0 can become nonzero. -/
theorem x0_guard_only_in_setRegister (m : HostQuantumMachine) (v : Nat) :
    hostSetRegister m 0 v = m := by
  simp [hostSetRegister]

/-! ## C5: register-token decoding bound -/

/-- C5 (counterexample): `x50` names a register that the claim says the
128-register host engine accepts (50 ∈ [0, 127]), yet the repository's only
register decoder rejects it: the bound 31 is hardcoded in `parseRegister`
and shared by both engines. -/
theorem register_decode_hardcoded_counterexample :
    parseRegister "x50" = Except.error "register number out of range: 50" ∧
    (50 : Nat) < 128 := by
  refine ⟨by decide, by decide⟩

/-- C5 (amended): register tokens decode against the single hardcoded bound
31 in every engine: a successful decode always yields an index ≤ 31; `x31`
is accepted, while `x32` and `x127` fail with the out-of-range error even
though the host machine has 128 registers. -/
theorem register_decode_bound :
    (∀ s n, parseRegister s = Except.ok n → n ≤ 31) ∧
    parseRegister "x31" = Except.ok 31 ∧
    parseRegister "x32" = Except.error "register number out of range: 32" ∧
    parseRegister "x127" = Except.error "register number out of range: 127" := by
  refine ⟨?_, by decide, by decide, by decide⟩
  intro s n h
  unfold parseRegister at h
  split at h
  · exact absurd h (by simp)
  · cases hp : parseUint8Dec (dropOne s) with
    | error e => rw [hp] at h; simp at h
    | ok num =>
      rw [hp] at h
      have h2 : (if num > 31 then
          Except.error ("register number out of range: " ++ Nat.repr num)
        else Except.ok num) = Except.ok n := h
      by_cases h31 : num > 31
      · rw [if_pos h31] at h2; exact absurd h2 (by simp)
      · rw [if_neg h31] at h2
        injection h2 with h3
        omega

/-- C5 witness: the soundness half of the amended theorem at `x5`. -/
theorem register_decode_bound_witness :
    parseRegister "x5" = Except.ok 5 ∧ 5 ≤ 31 :=
  ⟨by decide, register_decode_bound.1 "x5" 5 (by decide)⟩

/-! ## C6: load sign extension -/

/-- C6 (code bug, evaluated at the failing input): with memory holding bytes
`ff ff ff ff` at address 0, `lw x1 0(x0)` writes `0x00000000FFFFFFFF` — the
word is zero-extended, identically to `lwu` — although the spec (and the
presence of a distinct `lwu`) says `lw` sign-extends, which would give
`0xFFFFFFFFFFFFFFFF`.  The byte variant `lb` does sign-extend. -/
theorem lw_zero_extend_failing_input :
    (executeRISCInstruction
        { newQuantumRISCVMachine with memory := (fun a => if a < 4 then 255 else 0) }
        ⟨"lw", 1, 0, 0, 0, 0⟩).map (fun x => x.registers 1) =
      Except.ok 4294967295 ∧
    (executeRISCInstruction
        { newQuantumRISCVMachine with memory := (fun a => if a < 4 then 255 else 0) }
        ⟨"lb", 1, 0, 0, 0, 0⟩).map (fun x => x.registers 1) =
      Except.ok 18446744073709551615 ∧
    (4294967295 : Nat) ≠ 18446744073709551615 := by
  refine ⟨by decide, by decide, by decide⟩

/-! ## Supporting lemmas for the amplitude arithmetic -/

lemma totalMass_nil : totalMass [] = 0 := by
  simp [totalMass]

lemma totalMass_cons (a : ℂ) (l : List ℂ) :
    totalMass (a :: l) = (a * (starRingEnd ℂ) a).re + totalMass l := by
  simp [totalMass]

/-- Scaling every amplitude by a real factor scales the mass by its square. -/
lemma totalMass_map_mul (l : List ℂ) (r : ℝ) :
    totalMass (l.map (fun a => a * (r : ℂ))) = r ^ 2 * totalMass l := by
  induction l with
  | nil => simp [totalMass]
  | cons a l ih =>
    have hterm : ((a * (r : ℂ)) * (starRingEnd ℂ) (a * (r : ℂ))).re =
        r ^ 2 * (a * (starRingEnd ℂ) a).re := by
      have h1 : (a * (r : ℂ)) * (starRingEnd ℂ) (a * (r : ℂ)) =
          (a * (starRingEnd ℂ) a) * (((r * r : ℝ)) : ℂ) := by
        rw [map_mul, Complex.conj_ofReal]
        push_cast
        ring
      rw [h1, Complex.mul_conj, ← Complex.ofReal_mul, Complex.ofReal_re]
      rw [Complex.ofReal_re]
      ring
    simp only [List.map_cons, totalMass_cons, hterm, ih]
    ring

/-- The square of `1/√2`, used by the `H` gate and the Bell state. -/
lemma inv_sqrt_two_mul_self : (1 / Real.sqrt 2) * (1 / Real.sqrt 2) = 1 / 2 := by
  rw [div_mul_div_comm, one_mul, Real.mul_self_sqrt (by norm_num : (0 : ℝ) ≤ 2)]

/-! ## C7: deterministic measurement -/

/-- C7 (counterexample): the reachable tie state `H|0⟩` (amplitudes
`(1/√2, 1/√2)`, via `qinit` then `qapply` with gate 3) has exactly equal
marginal probabilities, and `qmeasure` returns 1 on it — the claim says ties
return 0. -/
theorem qmeasure_tie_counterexample :
    applyHostGate 3 qinitState =
      ⟨[((1 / Real.sqrt 2 : ℝ) : ℂ), ((1 / Real.sqrt 2 : ℝ) : ℂ)], 1⟩ ∧
    (ampGet (applyHostGate 3 qinitState).amplitudes 0 *
        (starRingEnd ℂ) (ampGet (applyHostGate 3 qinitState).amplitudes 0)).re =
      (ampGet (applyHostGate 3 qinitState).amplitudes 1 *
        (starRingEnd ℂ) (ampGet (applyHostGate 3 qinitState).amplitudes 1)).re ∧
    measureHostState (applyHostGate 3 qinitState) = 1 ∧ (1 : Nat) ≠ 0 := by
  have happ : applyHostGate 3 qinitState =
      ⟨[((1 / Real.sqrt 2 : ℝ) : ℂ), ((1 / Real.sqrt 2 : ℝ) : ℂ)], 1⟩ := by
    simp only [applyHostGate, qinitState, ampGet]
    norm_num [normalizeHostState, totalMass, Complex.mul_conj, Complex.normSq_ofReal,
      inv_sqrt_two_mul_self, Real.sqrt_one]
  refine ⟨happ, ?_, ?_, by decide⟩
  · rw [happ]
    simp [ampGet]
  · rw [happ]
    simp [measureHostState, ampGet, List.getD_cons_zero, List.getD_cons_succ]

/-- C7 (amended): `qmeasure` on a bound register succeeds and stores the
measurement into the destination scalar register; the measurement is 0
exactly when `p0 > p1` strictly, so an exact tie returns 1, not 0. -/
theorem qmeasure_argmax_tie_one (m : HostQuantumMachine) (inst : RISCInstruction)
    (st : HostQuantumState) (hop : inst.opcode = "qmeasure")
    (hb : m.quantumRegs inst.rs1 = some st) :
    executeQuantumRISCV m inst = Except.ok { m with registers :=
      (Function.update m.registers inst.rd (measureHostState st)) } ∧
    (measureHostState st = 0 ↔
      (ampGet st.amplitudes 1 * (starRingEnd ℂ) (ampGet st.amplitudes 1)).re <
      (ampGet st.amplitudes 0 * (starRingEnd ℂ) (ampGet st.amplitudes 0)).re) ∧
    ((ampGet st.amplitudes 0 * (starRingEnd ℂ) (ampGet st.amplitudes 0)).re =
      (ampGet st.amplitudes 1 * (starRingEnd ℂ) (ampGet st.amplitudes 1)).re →
      measureHostState st = 1) := by
  refine ⟨by simp [executeQuantumRISCV, hop, hb], ?_, ?_⟩
  · simp only [measureHostState]
    split_ifs with hgt
    · exact iff_of_true rfl hgt
    · exact iff_of_false (by decide) hgt
  · intro he
    simp only [measureHostState]
    exact if_neg (not_lt.mpr (le_of_eq he))

/-- C7 witness: the amended theorem at the `qinit` state bound to register 1
(probabilities 1 and 0, measurement 0). -/
theorem qmeasure_argmax_tie_one_witness :
    hostMachineWithQ1.quantumRegs 1 = some qinitState ∧
    (measureHostState qinitState = 0 ↔
      (ampGet qinitState.amplitudes 1 * (starRingEnd ℂ) (ampGet qinitState.amplitudes 1)).re <
      (ampGet qinitState.amplitudes 0 * (starRingEnd ℂ) (ampGet qinitState.amplitudes 0)).re) :=
  ⟨by simp [hostMachineWithQ1],
    (qmeasure_argmax_tie_one hostMachineWithQ1 ⟨"qmeasure", 2, 1, 0, 0, 0⟩
      qinitState rfl (by simp [hostMachineWithQ1])).2.1⟩

/-! ## C8: qentangle produces the Bell state -/

/-- C8 (confirmed): whenever both source registers are bound, `qentangle`
succeeds and replaces the destination binding with exactly the 2-qubit Bell
state — amplitudes `1/√2, 0, 0, 1/√2` — regardless of the two sources'
amplitudes (they are quantified arbitrary here and unused). -/
theorem qentangle_bell_state (m : HostQuantumMachine) (inst : RISCInstruction)
    (st1 st2 : HostQuantumState) (hop : inst.opcode = "qentangle")
    (h1 : m.quantumRegs inst.rs1 = some st1) (h2 : m.quantumRegs inst.rs2 = some st2) :
    executeQuantumRISCV m inst = Except.ok { m with quantumRegs :=
      (Function.update m.quantumRegs inst.rd (some ⟨[((1 / Real.sqrt 2 : ℝ) : ℂ), 0, 0,
        ((1 / Real.sqrt 2 : ℝ) : ℂ)], 2⟩)) } := by
  simp only [executeQuantumRISCV, hop, h1, h2]
  rfl

/-- C8 witness: the Bell theorem at a machine with registers 1 and 2 bound. -/
theorem qentangle_bell_state_witness :
    hostMachineWithQ12.quantumRegs 1 = some qinitState ∧
    hostMachineWithQ12.quantumRegs 2 = some qinitState ∧
    executeQuantumRISCV hostMachineWithQ12 ⟨"qentangle", 3, 1, 2, 0, 0⟩ =
      Except.ok { hostMachineWithQ12 with quantumRegs :=
        (Function.update hostMachineWithQ12.quantumRegs 3
          (some ⟨[((1 / Real.sqrt 2 : ℝ) : ℂ), 0, 0, ((1 / Real.sqrt 2 : ℝ) : ℂ)], 2⟩)) } :=
  ⟨by simp [hostMachineWithQ12], by simp [hostMachineWithQ12],
    qentangle_bell_state hostMachineWithQ12 ⟨"qentangle", 3, 1, 2, 0, 0⟩
      qinitState qinitState rfl (by simp [hostMachineWithQ12]) (by simp [hostMachineWithQ12])⟩

/-! ## C9: the normalization invariant of gate application -/

/-- C9 (counterexample): a normalized 1-qubit state (mass exactly 1) on which
one gate application breaks the invariant: applying X with the target qubit
itself as control (`gate X 0 0` in the REPL) maps `(1/√2, −1/√2)` to the zero
vector, normalization divides by `√0`, and the resulting mass is 0, not
within any tolerance of 1.  (In Go the amplitudes become NaN; in the exact
model the division by zero yields 0 — under both conventions Σ|amp|² ≠ 1.) -/
theorem normalization_invariant_counterexample :
    totalMass [((1 / Real.sqrt 2 : ℝ) : ℂ), -((1 / Real.sqrt 2 : ℝ) : ℂ)] = 1 ∧
    totalMass (singleQubitGateApply gateX
      ⟨[((1 / Real.sqrt 2 : ℝ) : ℂ), -((1 / Real.sqrt 2 : ℝ) : ℂ)], 1⟩ 0 [0]).amplitudes = 0 ∧
    (0 : ℝ) ≠ 1 := by
  refine ⟨?_, ?_, by norm_num⟩
  · norm_num [totalMass, Complex.mul_conj, Complex.normSq_ofReal, Complex.normSq_neg,
      inv_sqrt_two_mul_self]
  · have hacc : applyAccum gateX
        ⟨[((1 / Real.sqrt 2 : ℝ) : ℂ), -((1 / Real.sqrt 2 : ℝ) : ℂ)], 1⟩ 0 [0] =
        [0, 0] := by
      norm_num [applyAccum, controlsMet, ampGet, gateX, List.range_succ,
        List.replicate, List.set]
    simp only [singleQubitGateApply, stateNormalize, hacc]
    norm_num [totalMass]

/-- C9 (amended): after any single-qubit gate application whose
accumulate-and-replace step produces positive total mass, the explicit
normalization step re-establishes Σ|amp|² = 1 exactly.  (Positivity can fail
— see the counterexample — only in degenerate control configurations; it
always holds when the target is not among the controls, where the map is
unitary.) -/
theorem gate_apply_normalizes (g : GateMatrix) (st : QuantumState) (target : Nat)
    (controls : List Nat)
    (hpos : 0 < totalMass (applyAccum g st target controls)) :
    totalMass (singleQubitGateApply g st target controls).amplitudes = 1 := by
  simp only [singleQubitGateApply, stateNormalize, totalMass_map_mul]
  rw [div_pow, one_pow, Real.sq_sqrt hpos.le, one_div,
    inv_mul_cancel₀ (ne_of_gt hpos)]

/-- C9 witness: the amended theorem at X applied to `|0⟩` with no controls
(accumulated mass 1 > 0). -/
theorem gate_apply_normalizes_witness :
    0 < totalMass (applyAccum gateX ⟨[1, 0], 1⟩ 0 []) ∧
    totalMass (singleQubitGateApply gateX ⟨[1, 0], 1⟩ 0 []).amplitudes = 1 := by
  have hacc : applyAccum gateX ⟨[1, 0], 1⟩ 0 [] = [0, 1] := by
    norm_num [applyAccum, controlsMet, ampGet, gateX, List.range_succ,
      List.replicate, List.set]
  have hpos : 0 < totalMass (applyAccum gateX ⟨[1, 0], 1⟩ 0 []) := by
    rw [hacc]; norm_num [totalMass]
  exact ⟨hpos, gate_apply_normalizes gateX ⟨[1, 0], 1⟩ 0 [] hpos⟩

/-! ## C10: qapply with gate 6 or an out-of-range selector -/

/-- C10 (counterexample): the immediate 256 lies outside [0,6], yet `qapply`
with it does not leave the bound 1-qubit register's amplitudes unchanged:
`uint8(256) = 0` selects the X gate, turning the `qinit` state `(1,0)` into
`(0,1)`, which differs from the renormalization `(1,0)` of the original. -/
theorem qapply_truncated_selector_counterexample :
    (executeQuantumRISCV hostMachineWithQ1 ⟨"qapply", 0, 1, 0, 256, 0⟩).map
        (fun mm => (mm.quantumRegs 1).map (fun s => s.amplitudes)) =
      Except.ok (some [0, 1]) ∧
    (normalizeHostState qinitState).amplitudes = [1, 0] ∧
    ((256 : Int) < 0 ∨ 6 < (256 : Int)) ∧
    ([(0 : ℂ), 1] ≠ [1, 0]) := by
  have hnorm : (normalizeHostState qinitState).amplitudes = [1, 0] := by
    norm_num [normalizeHostState, qinitState, totalMass, Real.sqrt_one]
  have hgate : uint8OfInt 256 = 0 := by decide
  have happ : applyHostGate 0 qinitState = ⟨[0, 1], 1⟩ := by
    simp only [applyHostGate, qinitState, ampGet]
    norm_num [normalizeHostState, totalMass, Real.sqrt_one, List.replicate, List.set]
  refine ⟨?_, hnorm, by norm_num, by simp⟩
  simp [executeQuantumRISCV, hostMachineWithQ1, uint8OfInt, happ, Except.map]

/-- C10 (amended): the gate selector is the *low byte* of the immediate; for
a bound 1-qubit register, a low byte of 6 (CNOT, which requires 2 qubits) or
in [7, 255] is silently accepted: `qapply` returns no error and replaces the
binding with the renormalization of the unchanged amplitudes.  Immediates
outside [0,6] whose low byte falls back in [0,6] instead apply that gate (see
the counterexample). -/
theorem qapply_unknown_selector_renormalizes (m : HostQuantumMachine)
    (inst : RISCInstruction) (st : HostQuantumState) (hop : inst.opcode = "qapply")
    (hb : m.quantumRegs inst.rs1 = some st) (hq : st.numQubits = 1)
    (hg : uint8OfInt inst.imm = 6 ∨ 7 ≤ uint8OfInt inst.imm) :
    executeQuantumRISCV m inst = Except.ok { m with quantumRegs :=
      (Function.update m.quantumRegs inst.rs1 (some (normalizeHostState st))) } := by
  have hgate : applyHostGate (uint8OfInt inst.imm) st = normalizeHostState st := by
    rcases hg with hg | hg
    · rw [hg]; simp [applyHostGate, hq]
    · have h0 : ¬ uint8OfInt inst.imm = 0 := by omega
      have h1 : ¬ uint8OfInt inst.imm = 1 := by omega
      have h2 : ¬ uint8OfInt inst.imm = 2 := by omega
      have h3 : ¬ uint8OfInt inst.imm = 3 := by omega
      have h4 : ¬ uint8OfInt inst.imm = 4 := by omega
      have h5 : ¬ uint8OfInt inst.imm = 5 := by omega
      have h6 : ¬ uint8OfInt inst.imm = 6 := by omega
      simp [applyHostGate, h0, h1, h2, h3, h4, h5, h6]
  simp [executeQuantumRISCV, hop, hb, hgate]

/-- C10 witness: the amended theorem at immediate 7 on the `qinit` state. -/
theorem qapply_unknown_selector_renormalizes_witness :
    hostMachineWithQ1.quantumRegs 1 = some qinitState ∧
    executeQuantumRISCV hostMachineWithQ1 ⟨"qapply", 0, 1, 0, 7, 0⟩ =
      Except.ok { hostMachineWithQ1 with quantumRegs :=
        (Function.update hostMachineWithQ1.quantumRegs 1
          (some (normalizeHostState qinitState))) } :=
  ⟨by simp [hostMachineWithQ1],
    qapply_unknown_selector_renormalizes hostMachineWithQ1 ⟨"qapply", 0, 1, 0, 7, 0⟩
      qinitState rfl (by simp [hostMachineWithQ1]) rfl (Or.inr (by decide))⟩

end QMachine
